import Mathlib

/-!
# Verification of the mariana-trench taint-propagation core

Shallow embedding of `CallPositionFrames.cpp` (call-edge propagation of taint
frames) and the `Taint` container header.

Conventions of the embedding:
* Interned, externally-owned identities (`Kind`, `Method`, `Position`,
  `Feature`, `DexType`, canonical names, origins) are modelled as natural
  numbers; nullable pointers become `Option`.
* The C++ `int` distance is modelled as `Int`; `std::numeric_limits<int>::max()`
  is the explicit constant `intMax = 2147483647`.  Theorems that depend on the
  machine-integer range take the (always true in C++) bound
  `maximum_source_sink_distance ≤ intMax` as a hypothesis.
* External collaborator services (feature interning, canonical-name
  instantiation, callee-port canonicalization) are fields of a `Context`
  record of functions, mirroring §6 of the design document.
* `mt_assert` programmer-error assertions become `Option`-valued checked
  variants (`none` = fatal assertion failure); the unchecked operation gives
  the value computed when the assertion passes.
* Logging (`ERROR`/`WARNING`) has no semantic content; the embedding keeps the
  control flow (skip / drop) and omits the log side effect.
-/

namespace MarianaTrench

abbrev Kind := Nat
abbrev Method := Nat
abbrev Position := Nat
abbrev Feature := Nat
abbrev DexType := Nat
abbrev CanonicalName := Nat
abbrev FieldId := Nat

/-- `std::numeric_limits<int>::max()`. -/
def intMax : Int := 2147483647

/-- The root of an access path; only argument roots carry a parameter
position (`Root::is_argument` / `Root::parameter_position`). -/
inductive Root where
  | argument (position : Nat)
  | ret
  | leaf (id : Nat)
deriving DecidableEq

/-- An access path: a root plus a field path.  The path component is opaque
to the propagation algorithm. -/
structure AccessPath where
  root : Root
  path : List Nat
deriving DecidableEq

/-- Modelled from the spec: `FeatureMayAlwaysSet` (its source is not under
src/) is an evidence-set lattice with may/always semantics supporting join;
`isBot` is the bottom element, distinct from the empty value. -/
structure FeatureMayAlwaysSet where
  isBot : Bool
  may : Finset Nat
  always : Finset Nat
deriving DecidableEq

def FeatureMayAlwaysSet.bottom : FeatureMayAlwaysSet := ⟨true, ∅, ∅⟩

/-- Modelled from the spec: `FeatureMayAlwaysSet::empty`. -/
def FeatureMayAlwaysSet.isEmptySet (s : FeatureMayAlwaysSet) : Bool :=
  s.isBot || (decide (s.may = ∅) && decide (s.always = ∅))

/-- Modelled from the spec: join of may/always evidence sets ("may" holds in
either branch, "always" must hold in both). -/
def FeatureMayAlwaysSet.join (a b : FeatureMayAlwaysSet) : FeatureMayAlwaysSet :=
  if a.isBot then b
  else if b.isBot then a
  else ⟨false, a.may ∪ b.may, a.always ∩ b.always⟩

/-- Modelled from the spec: `FeatureMayAlwaysSet::add_always` inserts one
feature that always holds (hence it also may hold). -/
def FeatureMayAlwaysSet.add_always (a : FeatureMayAlwaysSet) (f : Feature) :
    FeatureMayAlwaysSet :=
  if a.isBot then ⟨false, {f}, {f}⟩
  else ⟨false, insert f a.may, insert f a.always⟩

/-- Modelled from the spec: adding a whole set of always-features. -/
def FeatureMayAlwaysSet.add_always_set (a : FeatureMayAlwaysSet) (s : Finset Nat) :
    FeatureMayAlwaysSet :=
  if s = ∅ then a
  else if a.isBot then ⟨false, s, s⟩
  else ⟨false, a.may ∪ s, a.always ∪ s⟩

/-- A single taint fact (`Frame.h` constructor argument order).  `kind = none`
encodes `Frame::bottom()` (modelled from the spec: a frame is bottom exactly
when it carries no kind). -/
structure Frame where
  kind : Option Kind
  callee_port : AccessPath
  callee : Option Method
  field_callee : Option FieldId
  call_position : Option Position
  distance : Int
  origins : Finset Nat
  field_origins : Finset Nat
  inferred_features : FeatureMayAlwaysSet
  locally_inferred_features : FeatureMayAlwaysSet
  user_features : Finset Nat
  via_type_of_ports : List Root
  via_value_of_ports : List Root
  local_positions : Finset Nat
  canonical_names : List CanonicalName
deriving DecidableEq

/-- Modelled from the spec: `Frame::bottom()` is the kindless frame. -/
def Frame.bottom : Frame :=
  ⟨none, ⟨Root.ret, []⟩, none, none, none, 0, ∅, ∅,
    FeatureMayAlwaysSet.bottom, FeatureMayAlwaysSet.bottom, ∅, [], [], ∅, []⟩

/-- Modelled from the spec: `Frame::is_bottom()`. -/
def Frame.is_bottom (f : Frame) : Bool := f.kind.isNone

/-- Modelled from the spec: a frame with non-empty `canonical_names` is a
CRTEX producer declaration (`Frame::is_crtex_producer_declaration`, not under
src/); §4.4 splits each kind into "CRTEX frames (non-empty canonical_names)
and ordinary frames". -/
def Frame.is_crtex_producer_declaration (f : Frame) : Bool :=
  !f.canonical_names.isEmpty

/-- Modelled from the spec: `Frame::features()` ("this merges user features
with existing inferred features") — the frame's evidence carried so far. -/
def Frame.features (f : Frame) : FeatureMayAlwaysSet :=
  (f.inferred_features.join f.locally_inferred_features).add_always_set
    f.user_features

/-- Modelled from the spec: `Frame::add_inferred_features` joins the given
evidence into the frame's inferred-feature set. -/
def Frame.add_inferred_features (f : Frame) (features : FeatureMayAlwaysSet) :
    Frame :=
  { f with inferred_features := f.inferred_features.join features }

/-- Modelled from the spec: `Frame::add_local_position` unions one position
into the frame's local positions. -/
def Frame.add_local_position (f : Frame) (p : Position) : Frame :=
  { f with local_positions := insert p f.local_positions }

/-- External collaborator services (§6 of the design document): feature
derivation, canonical-name instantiation, callee-port canonicalization. -/
structure Context where
  get_via_type_of_feature : Option DexType → Feature
  get_via_value_of_feature : Option String → Feature
  instantiate : CanonicalName → Option Method → List Feature → Option CanonicalName
  canonicalize_for_method : AccessPath → Option Method → AccessPath

/-- The loop body at lines 32-47: a non-argument or out-of-bounds port is
reported (error log) and skipped; a valid port derives one feature from the
register type at its index, appends it to the collected list and adds it as
an always-feature. -/
def viaTypeStep (ctx : Context) (source_register_types : List (Option DexType))
    (acc : List Feature × FeatureMayAlwaysSet) (port : Root) :
    List Feature × FeatureMayAlwaysSet :=
  match port with
  | Root.argument i =>
    if h : i < source_register_types.length then
      let feature :=
        ctx.get_via_type_of_feature (source_register_types.get ⟨i, h⟩)
      (acc.1 ++ [feature], acc.2.add_always feature)
    else acc
  | _ => acc

/-- `materialize_via_type_of_ports` (CallPositionFrames.cpp lines 18-48). -/
def materialize_via_type_of_ports (ctx : Context) (frame : Frame)
    (source_register_types : List (Option DexType))
    (via_type_of_features_added : List Feature)
    (inferred_features : FeatureMayAlwaysSet) :
    List Feature × FeatureMayAlwaysSet :=
  if frame.via_type_of_ports.isEmpty then
    (via_type_of_features_added, inferred_features)
  else
    frame.via_type_of_ports.foldl (viaTypeStep ctx source_register_types)
      (via_type_of_features_added, inferred_features)

/-- The loop body at lines 63-77, against the constant arguments. -/
def viaValueStep (ctx : Context)
    (source_constant_arguments : List (Option String))
    (acc : FeatureMayAlwaysSet) (port : Root) : FeatureMayAlwaysSet :=
  match port with
  | Root.argument i =>
    if h : i < source_constant_arguments.length then
      acc.add_always
        (ctx.get_via_value_of_feature (source_constant_arguments.get ⟨i, h⟩))
    else acc
  | _ => acc

/-- `materialize_via_value_of_ports` (lines 50-78): as above against
`source_constant_arguments`, without the separate collection list. -/
def materialize_via_value_of_ports (ctx : Context) (frame : Frame)
    (source_constant_arguments : List (Option String))
    (inferred_features : FeatureMayAlwaysSet) : FeatureMayAlwaysSet :=
  if frame.via_value_of_ports.isEmpty then inferred_features
  else
    frame.via_value_of_ports.foldl (viaValueStep ctx source_constant_arguments)
      inferred_features

/-- The loop state of `CallPositionFrames::propagate_frames` (lines 295-298):
accumulated distance, origins, field origins, inferred features and the
collected via-type-of features. -/
structure PropState where
  distance : Int
  origins : Finset Nat
  field_origins : Finset Nat
  inferred_features : FeatureMayAlwaysSet
  via_type_of_features_added : List Feature
deriving DecidableEq

/-- One iteration of the loop at lines 300-325: a frame at or beyond the
distance cap is skipped entirely; otherwise it contributes its distance + 1
(via min), its origins, its features, and its materialized via-ports. -/
def stepFrame (ctx : Context) (source_register_types : List (Option DexType))
    (source_constant_arguments : List (Option String))
    (maximum_source_sink_distance : Int) (st : PropState) (frame : Frame) :
    PropState :=
  if frame.distance ≥ maximum_source_sink_distance then st
  else
    let tv := materialize_via_type_of_ports ctx frame source_register_types
      st.via_type_of_features_added (st.inferred_features.join frame.features)
    { distance := min st.distance (frame.distance + 1)
      origins := st.origins ∪ frame.origins
      field_origins := st.field_origins ∪ frame.field_origins
      inferred_features :=
        materialize_via_value_of_ports ctx frame source_constant_arguments tv.2
      via_type_of_features_added := tv.1 }

/-- The frame returned at lines 327-343: the accumulated state packaged with
the new callee, callee port and call position; the field callee is null
(method call edges only) and the locally-inferred features, user features,
via-ports, local positions and canonical names are reset to empty. -/
def buildPropagated (kind : Option Kind) (callee : Method)
    (callee_port : AccessPath) (call_position : Option Position)
    (st : PropState) : Frame × List Feature :=
  (⟨kind, callee_port, some callee, none, call_position, st.distance,
      st.origins, st.field_origins, st.inferred_features,
      FeatureMayAlwaysSet.bottom, ∅, [], [], ∅, []⟩,
    st.via_type_of_features_added)

/-- `CallPositionFrames::propagate_frames` (lines 280-344).  Returns the
produced frame together with the final `via_type_of_features_added` (an
in/out vector parameter in the C++).  Note: the source returns the built
frame even when every input frame was skipped by the distance filter, in
which case `distance` keeps its initial value `intMax`. -/
def propagate_frames (callee : Method) (callee_port : AccessPath)
    (call_position : Option Position) (maximum_source_sink_distance : Int)
    (ctx : Context) (source_register_types : List (Option DexType))
    (source_constant_arguments : List (Option String))
    (frames : List Frame) (via_type_of_features_added : List Feature) :
    Frame × List Feature :=
  match frames with
  | [] => (Frame.bottom, via_type_of_features_added)
  | f0 :: _ =>
    buildPropagated f0.kind callee callee_port call_position
      (frames.foldl
        (stepFrame ctx source_register_types source_constant_arguments
          maximum_source_sink_distance)
        ⟨intMax, ∅, ∅, FeatureMayAlwaysSet.bottom, via_type_of_features_added⟩)

/-- Set-semantics insertion into a duplicate-free list of canonical names
(`CanonicalNameSetAbstractDomain::add`). -/
def insertName (s : List CanonicalName) (m : CanonicalName) : List CanonicalName :=
  if m ∈ s then s else s ++ [m]

/-- The instantiated canonical names of one CRTEX frame (lines 390-398):
each of the frame's canonical names is instantiated against the propagated
callee and the via-type-of features materialized for this frame; failures
are skipped. -/
def crtexInstantiatedNames (callee : Method) (callee_port : AccessPath)
    (call_position : Option Position) (maximum_source_sink_distance : Int)
    (ctx : Context) (source_register_types : List (Option DexType))
    (frame : Frame) : List CanonicalName :=
  let pr := propagate_frames callee callee_port call_position
    maximum_source_sink_distance ctx source_register_types [] [frame] []
  frame.canonical_names.foldl
    (fun s n =>
      match ctx.instantiate n pr.1.callee pr.2 with
      | none => s
      | some m => insertName s m)
    []

/-- `CallPositionFrames`: a position (null until the first recorded one) and
the frames grouped by kind.  The kind-keyed grouped set is modelled as a
duplicate-free list of frames. -/
structure CallPositionFrames where
  position : Option Position
  frames : List Frame
deriving DecidableEq

def CallPositionFrames.bottom : CallPositionFrames := ⟨none, []⟩

/-- `is_bottom` checks emptiness of the frame map only (not the position). -/
def CallPositionFrames.is_bottom (a : CallPositionFrames) : Bool :=
  a.frames.isEmpty

/-- Set-semantics insertion of one frame. -/
def insertFrame (l : List Frame) (f : Frame) : List Frame :=
  if f ∈ l then l else l ++ [f]

/-- `CallPositionFrames::add` (lines 89-101), the value computed when the
position assertion passes: a null recorded position is replaced by the new
frame's position, and the frame is inserted. -/
def CallPositionFrames.add (a : CallPositionFrames) (f : Frame) :
    CallPositionFrames :=
  match a.position with
  | none => ⟨f.call_position, insertFrame a.frames f⟩
  | some p => ⟨some p, insertFrame a.frames f⟩

/-- `CallPositionFrames::add` with its `mt_assert` (line 93): once a non-null
position is recorded, adding a frame with a different position is a fatal
assertion failure (`none`). -/
def CallPositionFrames.add_chk (a : CallPositionFrames) (f : Frame) :
    Option CallPositionFrames :=
  match a.position with
  | none => some ⟨f.call_position, insertFrame a.frames f⟩
  | some p =>
    if f.call_position = some p then some ⟨some p, insertFrame a.frames f⟩
    else none

/-- The position-compatibility assertion shared by every comparing and
combining operation (lines 104, 109, 115, 124, 132, 137, 142):
`is_bottom() || other.is_bottom() || position_ == other.position()`. -/
def CallPositionFrames.positions_compatible (a b : CallPositionFrames) : Bool :=
  a.is_bottom || b.is_bottom || decide (a.position = b.position)

/-- Modelled from the spec: the grouped-set `leq` — every frame on the left
has a counterpart on the right (`FrameSet` internals are not under src/). -/
def framesLeq (a b : List Frame) : Bool := a.all (fun f => f ∈ b)

/-- Modelled from the spec: grouped-set equality (mutual containment). -/
def framesEq (a b : List Frame) : Bool :=
  a.all (fun f => f ∈ b) && b.all (fun f => f ∈ a)

/-- Modelled from the spec: grouped-set join (union). -/
def framesJoin (a b : List Frame) : List Frame := b.foldl insertFrame a

/-- Modelled from the spec: grouped-set meet (frames present on both sides;
`FrameSet` internals are not under src/). -/
def framesMeet (a b : List Frame) : List Frame := a.filter (fun f => f ∈ b)

/-- Modelled from the spec: grouped-set difference (frames present on the
left but not on the right). -/
def framesDiff (a b : List Frame) : List Frame := a.filter (fun f => f ∉ b)

/-- `CallPositionFrames::leq` (lines 103-106) with its assertion. -/
def CallPositionFrames.leq_chk (a b : CallPositionFrames) : Option Bool :=
  if a.positions_compatible b then some (framesLeq a.frames b.frames) else none

/-- `CallPositionFrames::equals` (lines 108-111) with its assertion; the
recorded positions themselves are not compared. -/
def CallPositionFrames.equals_chk (a b : CallPositionFrames) : Option Bool :=
  if a.positions_compatible b then some (framesEq a.frames b.frames) else none

/-- `CallPositionFrames::join_with` (lines 113-120), assertion passing:
the frame map is joined, the recorded position is left unchanged. -/
def CallPositionFrames.join_with (a b : CallPositionFrames) :
    CallPositionFrames :=
  ⟨a.position, framesJoin a.frames b.frames⟩

/-- `CallPositionFrames::join_with` with its assertion. -/
def CallPositionFrames.join_with_chk (a b : CallPositionFrames) :
    Option CallPositionFrames :=
  if a.positions_compatible b then some (a.join_with b) else none

/-- `CallPositionFrames::widen_with` (lines 122-129) with its assertion
(the widening truncation policy lives in `FrameSet`, not under src/; the
spec describes it as join plus truncation). -/
def CallPositionFrames.widen_with_chk (a b : CallPositionFrames) :
    Option CallPositionFrames :=
  if a.positions_compatible b then some ⟨a.position, framesJoin a.frames b.frames⟩
  else none

/-- `CallPositionFrames::meet_with` (lines 131-134) with its assertion. -/
def CallPositionFrames.meet_with_chk (a b : CallPositionFrames) :
    Option CallPositionFrames :=
  if a.positions_compatible b then some ⟨a.position, framesMeet a.frames b.frames⟩
  else none

/-- `CallPositionFrames::narrow_with` (lines 136-139) with its assertion. -/
def CallPositionFrames.narrow_with_chk (a b : CallPositionFrames) :
    Option CallPositionFrames :=
  if a.positions_compatible b then some ⟨a.position, framesMeet a.frames b.frames⟩
  else none

/-- `CallPositionFrames::difference_with` (lines 141-150) with its
assertion. -/
def CallPositionFrames.difference_with_chk (a b : CallPositionFrames) :
    Option CallPositionFrames :=
  if a.positions_compatible b then some ⟨a.position, framesDiff a.frames b.frames⟩
  else none

/-- `CallPositionFrames::map` (lines 152-158): apply a transform to every
contained frame. -/
def CallPositionFrames.map (a : CallPositionFrames) (f : Frame → Frame) :
    CallPositionFrames :=
  ⟨a.position, a.frames.map f⟩

/-- `CallPositionFrames::add_inferred_features` (lines 160-167): an empty
feature set returns immediately. -/
def CallPositionFrames.add_inferred_features (a : CallPositionFrames)
    (features : FeatureMayAlwaysSet) : CallPositionFrames :=
  if features.isEmptySet then a
  else a.map (fun f => f.add_inferred_features features)

/-- `CallPositionFrames::add_inferred_features_and_local_position`
(lines 190-205): an empty feature set together with a null position returns
immediately. -/
def CallPositionFrames.add_inferred_features_and_local_position
    (a : CallPositionFrames) (features : FeatureMayAlwaysSet)
    (position : Option Position) : CallPositionFrames :=
  if features.isEmptySet && position.isNone then a
  else
    a.map (fun f =>
      let f1 := if features.isEmptySet then f else f.add_inferred_features features
      match position with
      | none => f1
      | some p => f1.add_local_position p)

/-- The frame added at lines 410-425 for one successfully instantiated CRTEX
frame: every field passes through from the ordinary sub-algorithm's result
except the callee port (canonicalized for the callee), the distance (forced
to 0: "always leaves for crtex frames") and the canonical names (replaced by
the instantiated set). -/
def crtexOutFrame (callee : Method) (callee_port : AccessPath)
    (call_position : Option Position) (maximum_source_sink_distance : Int)
    (ctx : Context) (source_register_types : List (Option DexType))
    (kind : Option Kind) (frame : Frame) : Frame :=
  let propagated := (propagate_frames callee callee_port call_position
    maximum_source_sink_distance ctx source_register_types [] [frame] []).1
  ⟨kind,
    ctx.canonicalize_for_method propagated.callee_port propagated.callee,
    propagated.callee, propagated.field_callee, propagated.call_position,
    0, propagated.origins, propagated.field_origins,
    propagated.inferred_features, propagated.locally_inferred_features,
    propagated.user_features, propagated.via_type_of_ports,
    propagated.via_value_of_ports, propagated.local_positions,
    crtexInstantiatedNames callee callee_port call_position
      maximum_source_sink_distance ctx source_register_types frame⟩

/-- One iteration of the loop of `propagate_crtex_frames` (lines 361-427).
`kind` is the kind read from the first frame of the group.  A frame whose
ordinary propagation is bottom is skipped; a frame without canonical names
is dropped (warning logged); a frame none of whose canonical names
instantiates is dropped; otherwise the rebuilt frame is added. -/
def crtexStep (callee : Method) (callee_port : AccessPath)
    (call_position : Option Position) (maximum_source_sink_distance : Int)
    (ctx : Context) (source_register_types : List (Option DexType))
    (kind : Option Kind) (result : CallPositionFrames) (frame : Frame) :
    CallPositionFrames :=
  let propagated := (propagate_frames callee callee_port call_position
    maximum_source_sink_distance ctx source_register_types [] [frame] []).1
  if propagated.is_bottom then result
  else if frame.canonical_names.isEmpty then result
  else if (crtexInstantiatedNames callee callee_port call_position
      maximum_source_sink_distance ctx source_register_types frame).isEmpty then
    result
  else
    result.add (crtexOutFrame callee callee_port call_position
      maximum_source_sink_distance ctx source_register_types kind frame)

/-- The kind of the first frame of a group
(`frames.begin()->get().kind()`). -/
def headKind (l : List Frame) : Option Kind :=
  match l with
  | [] => none
  | f :: _ => f.kind

/-- `CallPositionFrames::propagate_crtex_frames` (lines 346-430): each CRTEX
frame is propagated individually through the ordinary sub-algorithm (with an
empty constant-argument list), dropped when it has no canonical names
(warning logged) or when no canonical name instantiates, and otherwise added
with distance forced to 0, the canonicalized callee port, and the
instantiated name set. -/
def propagate_crtex_frames (callee : Method) (callee_port : AccessPath)
    (call_position : Option Position) (maximum_source_sink_distance : Int)
    (ctx : Context) (source_register_types : List (Option DexType))
    (frames : List Frame) : CallPositionFrames :=
  if frames.isEmpty then CallPositionFrames.bottom
  else
    frames.foldl
      (crtexStep callee callee_port call_position maximum_source_sink_distance
        ctx source_register_types (headKind frames))
      CallPositionFrames.bottom

/-- `CallPositionFrames::propagate` (lines 207-262): bottom propagates to
bottom; otherwise the frames are partitioned by kind, each kind is split
into CRTEX and ordinary frames, the CRTEX results are joined in and the
single merged ordinary frame is added unless it is bottom. -/
def CallPositionFrames.propagate (self : CallPositionFrames) (callee : Method)
    (callee_port : AccessPath) (call_position : Option Position)
    (maximum_source_sink_distance : Int) (ctx : Context)
    (source_register_types : List (Option DexType))
    (source_constant_arguments : List (Option String)) : CallPositionFrames :=
  if self.is_bottom then CallPositionFrames.bottom
  else
    ((self.frames.map Frame.kind).dedup).foldl
      (fun result kind =>
        let frames_of_kind := self.frames.filter (fun f => f.kind = kind)
        let crtex_frames :=
          frames_of_kind.filter (fun f => f.is_crtex_producer_declaration)
        let non_crtex_frames :=
          frames_of_kind.filter (fun f => !f.is_crtex_producer_declaration)
        let result1 := result.join_with
          (propagate_crtex_frames callee callee_port call_position
            maximum_source_sink_distance ctx source_register_types crtex_frames)
        let non_crtex_frame := (propagate_frames callee callee_port
          call_position maximum_source_sink_distance ctx source_register_types
          source_constant_arguments non_crtex_frames []).1
        if non_crtex_frame.is_bottom then result1 else result1.add non_crtex_frame)
      CallPositionFrames.bottom

/-- An element of `Taint`: a set of frames sharing one kind (`FrameSet`). -/
structure FrameSet where
  kind : Option Kind
  frames : List Frame
deriving DecidableEq

/-- `Taint` (header under src/unnamed): a grouped set of `FrameSet`s keyed by
kind.  `Taint() = default` is the empty set. -/
structure Taint where
  set_ : List FrameSet
deriving DecidableEq

/-- The default-constructed `Taint()`. -/
def Taint.default_value : Taint := ⟨[]⟩

/-- `Taint::bottom()` returns `Taint()`. -/
def Taint.bottom : Taint := ⟨[]⟩

/-- `Taint::is_bottom()` delegates to the grouped set, whose bottom is the
empty set (modelled from the spec: "Bottom = empty mapping"). -/
def Taint.is_bottom (t : Taint) : Bool := t.set_.isEmpty

/-- `Taint::top()` is `mt_unreachable()`: no value is ever produced.  The
embedding returns `none` (abort) rather than a `Taint`. -/
def Taint.top : Option Taint := none

/-! ## Specification-side definitions (from the spec's words, for comparison
with the propagation code) -/

/-- The input frames that survive the distance filter (spec §4.4 step 1). -/
def survivors (maximum_source_sink_distance : Int) (frames : List Frame) :
    List Frame :=
  frames.filter (fun f => f.distance < maximum_source_sink_distance)

/-- The minimum distance over a list of frames (`intMax` for an empty list). -/
def minimumDistance (l : List Frame) : Int :=
  match l with
  | [] => intMax
  | f :: t => t.foldl (fun d g => min d g.distance) f.distance

/-- The union of the origins of a list of frames (spec §4.4 step 3). -/
def unionOrigins (l : List Frame) : Finset Nat :=
  l.foldl (fun s f => s ∪ f.origins) ∅

/-- The union of the field origins of a list of frames. -/
def unionFieldOrigins (l : List Frame) : Finset Nat :=
  l.foldl (fun s f => s ∪ f.field_origins) ∅

/-- Spec-side description of via-type-of materialization: the features
derived from exactly the in-bounds argument ports, one per port, in order. -/
def viaTypeOfValidFeatures (ctx : Context)
    (source_register_types : List (Option DexType)) (ports : List Root) :
    List Feature :=
  ports.filterMap
    (fun port =>
      match port with
      | Root.argument i =>
        if h : i < source_register_types.length then
          some (ctx.get_via_type_of_feature (source_register_types.get ⟨i, h⟩))
        else none
      | _ => none)

/-- Adding a list of always-features one by one. -/
def addAlwaysAll (s : FeatureMayAlwaysSet) (l : List Feature) :
    FeatureMayAlwaysSet :=
  l.foldl FeatureMayAlwaysSet.add_always s

/-! ## Concrete sample values (used by witnesses) -/

/-- A frame with the given kind, distance, call position, origins and
canonical names; all other fields default/empty. -/
def mkFrame (k : Nat) (d : Int) (pos : Option Position) (org : Finset Nat)
    (names : List CanonicalName) : Frame :=
  ⟨some k, ⟨Root.ret, []⟩, none, none, pos, d, org, ∅,
    FeatureMayAlwaysSet.bottom, FeatureMayAlwaysSet.bottom, ∅, [], [], ∅, names⟩

/-- A concrete stand-in for the external collaborator services: type and
value features are numbered identities, an even canonical name instantiates
to its successor, an odd one fails, and canonicalization prepends a marker
to the port's path. -/
def sampleCtx : Context :=
  ⟨fun t => match t with | some n => 100 + n | none => 100,
   fun _ => 200,
   fun n _ _ => if n % 2 = 0 then some (n + 1) else none,
   fun p _ => ⟨p.root, 99 :: p.path⟩⟩

/-- A concrete non-bottom `CallPositionFrames`. -/
def sampleCPF : CallPositionFrames := ⟨some 5, [mkFrame 1 0 (some 5) {10} []]⟩

end MarianaTrench

namespace MarianaTrench

/-! ## Helper lemmas -/

theorem opt_ite_isSome {α : Type} (c : Bool) (x : α) :
    (if c then some x else none).isSome = true ↔ c = true := by
  cases c <;> simp

theorem positions_compatible_iff (a b : CallPositionFrames) :
    a.positions_compatible b = true ↔
      (a.is_bottom = true ∨ b.is_bottom = true ∨ a.position = b.position) := by
  simp [CallPositionFrames.positions_compatible, Bool.or_eq_true,
    decide_eq_true_iff, or_assoc]

theorem foldl_viaTypeStep (ctx : Context) (srt : List (Option DexType)) :
    ∀ (ports : List Root) (via0 : List Feature) (inf0 : FeatureMayAlwaysSet),
    ports.foldl (viaTypeStep ctx srt) (via0, inf0)
      = (via0 ++ viaTypeOfValidFeatures ctx srt ports,
         addAlwaysAll inf0 (viaTypeOfValidFeatures ctx srt ports)) := by
  intro ports
  induction ports with
  | nil =>
    intro via0 inf0
    simp [viaTypeOfValidFeatures, addAlwaysAll]
  | cons p t ih =>
    intro via0 inf0
    cases p with
    | argument i =>
      by_cases h : i < srt.length
      · simp only [List.foldl_cons, viaTypeStep, dif_pos h]
        rw [ih]
        have hv : viaTypeOfValidFeatures ctx srt (Root.argument i :: t)
            = ctx.get_via_type_of_feature (srt.get ⟨i, h⟩)
              :: viaTypeOfValidFeatures ctx srt t := by
          simp [viaTypeOfValidFeatures, List.filterMap_cons, dif_pos h]
        rw [hv]
        simp [addAlwaysAll, List.append_assoc]
      · simp only [List.foldl_cons, viaTypeStep, dif_neg h]
        rw [ih]
        have hv : viaTypeOfValidFeatures ctx srt (Root.argument i :: t)
            = viaTypeOfValidFeatures ctx srt t := by
          simp [viaTypeOfValidFeatures, List.filterMap_cons, dif_neg h]
        rw [hv]
    | ret =>
      simp only [List.foldl_cons, viaTypeStep]
      rw [ih]
      have hv : viaTypeOfValidFeatures ctx srt (Root.ret :: t)
          = viaTypeOfValidFeatures ctx srt t := by
        simp [viaTypeOfValidFeatures, List.filterMap_cons]
      rw [hv]
    | leaf j =>
      simp only [List.foldl_cons, viaTypeStep]
      rw [ih]
      have hv : viaTypeOfValidFeatures ctx srt (Root.leaf j :: t)
          = viaTypeOfValidFeatures ctx srt t := by
        simp [viaTypeOfValidFeatures, List.filterMap_cons]
      rw [hv]

/-! ## Claim theorems -/

/-- Claim C5: during propagation, for every frame declaring
`via_type_of_ports`, each declared port that is an argument position with
index within bounds of `source_register_types` adds exactly one
always-feature derived from `source_register_types` at that index to the
inferred features and collects it for canonicalization; every other port
adds no feature and does not abort the materialization. -/
theorem materialize_via_type_of_ports_spec (ctx : Context) (frame : Frame)
    (srt : List (Option DexType)) (via0 : List Feature)
    (inf0 : FeatureMayAlwaysSet) :
    materialize_via_type_of_ports ctx frame srt via0 inf0
      = (via0 ++ viaTypeOfValidFeatures ctx srt frame.via_type_of_ports,
         addAlwaysAll inf0 (viaTypeOfValidFeatures ctx srt frame.via_type_of_ports)) := by
  unfold materialize_via_type_of_ports
  by_cases h : frame.via_type_of_ports.isEmpty
  · rw [if_pos h]
    have he : frame.via_type_of_ports = [] := by
      cases hp : frame.via_type_of_ports with
      | nil => rfl
      | cons x xs => rw [hp] at h; simp [List.isEmpty] at h
    rw [he]
    simp [viaTypeOfValidFeatures, addAlwaysAll]
  · rw [if_neg h]
    exact foldl_viaTypeStep ctx srt _ via0 inf0

/-- Claim C8: `Taint` has no top representation: `Taint::bottom()` is the
default-constructed empty mapping, and `Taint::top()` aborts
(`mt_unreachable`) instead of returning a value. -/
theorem taint_bottom_and_top :
    Taint.bottom = Taint.default_value ∧ Taint.bottom.set_ = []
      ∧ Taint.bottom.is_bottom = true ∧ Taint.top = none :=
  ⟨rfl, rfl, rfl, rfl⟩

/-- Claim C9: `CallPositionFrames::propagate` applied to a bottom (empty)
`CallPositionFrames` returns bottom, for every choice of callee, callee
port, call position, maximum distance, context services, register types and
constant arguments. -/
theorem propagate_bottom (cpf : CallPositionFrames) (callee : Method)
    (callee_port : AccessPath) (call_position : Option Position)
    (m : Int) (ctx : Context) (srt : List (Option DexType))
    (sca : List (Option String)) (h : cpf.is_bottom = true) :
    cpf.propagate callee callee_port call_position m ctx srt sca
      = CallPositionFrames.bottom := by
  unfold CallPositionFrames.propagate
  rw [if_pos h]

theorem propagate_bottom_witness :
    CallPositionFrames.bottom.is_bottom = true ∧
    CallPositionFrames.bottom.propagate 2 ⟨Root.ret, []⟩ (some 7) 5 sampleCtx [] []
      = CallPositionFrames.bottom :=
  ⟨rfl, propagate_bottom CallPositionFrames.bottom 2 ⟨Root.ret, []⟩ (some 7) 5
    sampleCtx [] [] rfl⟩

/-- Claim C10: `add_inferred_features` with an empty feature set is the
identity, and `add_inferred_features_and_local_position` with an empty
feature set and a null position is likewise the identity. -/
theorem add_inferred_features_empty_identity (a : CallPositionFrames)
    (features : FeatureMayAlwaysSet) :
    (features.isEmptySet = true → a.add_inferred_features features = a) ∧
    (features.isEmptySet = true →
      a.add_inferred_features_and_local_position features none = a) := by
  constructor
  · intro h
    unfold CallPositionFrames.add_inferred_features
    rw [if_pos h]
  · intro h
    unfold CallPositionFrames.add_inferred_features_and_local_position
    simp [h]

theorem add_inferred_features_empty_identity_witness :
    FeatureMayAlwaysSet.bottom.isEmptySet = true ∧
    sampleCPF.add_inferred_features FeatureMayAlwaysSet.bottom = sampleCPF ∧
    sampleCPF.add_inferred_features_and_local_position
      FeatureMayAlwaysSet.bottom none = sampleCPF :=
  ⟨by decide,
   (add_inferred_features_empty_identity sampleCPF FeatureMayAlwaysSet.bottom).1
     (by decide),
   (add_inferred_features_empty_identity sampleCPF FeatureMayAlwaysSet.bottom).2
     (by decide)⟩

/-- Claim C6: every frame built by the ordinary-frame propagation
sub-algorithm carries the given callee, callee port and call position, has a
null field callee, and has locally-inferred features, user features,
via-ports, local positions and canonical names reset to empty/bottom. -/
theorem propagate_frames_output_fields (callee : Method)
    (callee_port : AccessPath) (call_position : Option Position) (m : Int)
    (ctx : Context) (srt : List (Option DexType)) (sca : List (Option String))
    (frames : List Frame) (via0 : List Feature) (h : frames ≠ []) :
    ((propagate_frames callee callee_port call_position m ctx srt sca frames via0).1.callee
        = some callee)
    ∧ ((propagate_frames callee callee_port call_position m ctx srt sca frames via0).1.callee_port
        = callee_port)
    ∧ ((propagate_frames callee callee_port call_position m ctx srt sca frames via0).1.call_position
        = call_position)
    ∧ ((propagate_frames callee callee_port call_position m ctx srt sca frames via0).1.field_callee
        = none)
    ∧ ((propagate_frames callee callee_port call_position m ctx srt sca frames via0).1.locally_inferred_features
        = FeatureMayAlwaysSet.bottom)
    ∧ ((propagate_frames callee callee_port call_position m ctx srt sca frames via0).1.user_features
        = ∅)
    ∧ ((propagate_frames callee callee_port call_position m ctx srt sca frames via0).1.via_type_of_ports
        = [])
    ∧ ((propagate_frames callee callee_port call_position m ctx srt sca frames via0).1.via_value_of_ports
        = [])
    ∧ ((propagate_frames callee callee_port call_position m ctx srt sca frames via0).1.local_positions
        = ∅)
    ∧ ((propagate_frames callee callee_port call_position m ctx srt sca frames via0).1.canonical_names
        = []) := by
  obtain ⟨f0, t, rfl⟩ := List.exists_cons_of_ne_nil h
  exact ⟨rfl, rfl, rfl, rfl, rfl, rfl, rfl, rfl, rfl, rfl⟩

theorem propagate_frames_output_fields_witness :
    ([mkFrame 1 0 (some 5) {10} []] ≠ ([] : List Frame)) ∧
    ((propagate_frames 2 ⟨Root.ret, []⟩ (some 7) 5 sampleCtx [] []
        [mkFrame 1 0 (some 5) {10} []] []).1.callee = some 2
      ∧ (propagate_frames 2 ⟨Root.ret, []⟩ (some 7) 5 sampleCtx [] []
        [mkFrame 1 0 (some 5) {10} []] []).1.callee_port = ⟨Root.ret, []⟩
      ∧ (propagate_frames 2 ⟨Root.ret, []⟩ (some 7) 5 sampleCtx [] []
        [mkFrame 1 0 (some 5) {10} []] []).1.call_position = some 7
      ∧ (propagate_frames 2 ⟨Root.ret, []⟩ (some 7) 5 sampleCtx [] []
        [mkFrame 1 0 (some 5) {10} []] []).1.field_callee = none
      ∧ (propagate_frames 2 ⟨Root.ret, []⟩ (some 7) 5 sampleCtx [] []
        [mkFrame 1 0 (some 5) {10} []] []).1.locally_inferred_features
          = FeatureMayAlwaysSet.bottom
      ∧ (propagate_frames 2 ⟨Root.ret, []⟩ (some 7) 5 sampleCtx [] []
        [mkFrame 1 0 (some 5) {10} []] []).1.user_features = ∅
      ∧ (propagate_frames 2 ⟨Root.ret, []⟩ (some 7) 5 sampleCtx [] []
        [mkFrame 1 0 (some 5) {10} []] []).1.via_type_of_ports = []
      ∧ (propagate_frames 2 ⟨Root.ret, []⟩ (some 7) 5 sampleCtx [] []
        [mkFrame 1 0 (some 5) {10} []] []).1.via_value_of_ports = []
      ∧ (propagate_frames 2 ⟨Root.ret, []⟩ (some 7) 5 sampleCtx [] []
        [mkFrame 1 0 (some 5) {10} []] []).1.local_positions = ∅
      ∧ (propagate_frames 2 ⟨Root.ret, []⟩ (some 7) 5 sampleCtx [] []
        [mkFrame 1 0 (some 5) {10} []] []).1.canonical_names = []) :=
  ⟨by decide,
   propagate_frames_output_fields 2 ⟨Root.ret, []⟩ (some 7) 5 sampleCtx [] []
     [mkFrame 1 0 (some 5) {10} []] [] (by decide)⟩

/-- Claim C7 counterexample: the claim states that `add` asserts every
subsequently added frame's `call_position` equals the one recorded on the
very first insertion.  Concretely: the first added frame has a null call
position (which is recorded, leaving the recorded slot null), and a second
frame with call position 1 — different from the recorded one — is then
accepted without any assertion failure, because the code only compares once
the recorded position is non-null (`position_ == nullptr` re-records
instead). -/
theorem call_position_first_null_counterexample :
    (CallPositionFrames.add CallPositionFrames.bottom (mkFrame 1 0 none ∅ [])
        = ⟨none, [mkFrame 1 0 none ∅ []]⟩)
    ∧ ((CallPositionFrames.add_chk ⟨none, [mkFrame 1 0 none ∅ []]⟩
        (mkFrame 1 0 (some 1) ∅ [])).isSome = true)
    ∧ (mkFrame 1 0 (some 1) ∅ []).call_position
        ≠ (⟨none, [mkFrame 1 0 none ∅ []]⟩ : CallPositionFrames).position := by
  decide

/-- Claim C7 (amended): `add(frame)` records the frame's `call_position`
whenever no position has been recorded yet (in particular on the very first
insertion) without asserting; once a non-null position has been recorded,
every subsequent `add` asserts (fatally) that the new frame's position
equals it.  Every comparing or combining operation (`leq`, `equals`,
`join_with`, `widen_with`, `meet_with`, `narrow_with`, `difference_with`)
asserts that the operands' positions are equal unless at least one operand
is bottom. -/
theorem call_position_invariant_amended :
    (∀ (a : CallPositionFrames) (f : Frame), a.position = none →
        a.add_chk f = some ⟨f.call_position, insertFrame a.frames f⟩)
    ∧ (∀ (a : CallPositionFrames) (f : Frame) (p : Position),
        a.position = some p →
        ((a.add_chk f).isSome = true ↔ f.call_position = some p))
    ∧ (∀ a b : CallPositionFrames, (a.leq_chk b).isSome = true ↔
        (a.is_bottom = true ∨ b.is_bottom = true ∨ a.position = b.position))
    ∧ (∀ a b : CallPositionFrames, (a.equals_chk b).isSome = true ↔
        (a.is_bottom = true ∨ b.is_bottom = true ∨ a.position = b.position))
    ∧ (∀ a b : CallPositionFrames, (a.join_with_chk b).isSome = true ↔
        (a.is_bottom = true ∨ b.is_bottom = true ∨ a.position = b.position))
    ∧ (∀ a b : CallPositionFrames, (a.widen_with_chk b).isSome = true ↔
        (a.is_bottom = true ∨ b.is_bottom = true ∨ a.position = b.position))
    ∧ (∀ a b : CallPositionFrames, (a.meet_with_chk b).isSome = true ↔
        (a.is_bottom = true ∨ b.is_bottom = true ∨ a.position = b.position))
    ∧ (∀ a b : CallPositionFrames, (a.narrow_with_chk b).isSome = true ↔
        (a.is_bottom = true ∨ b.is_bottom = true ∨ a.position = b.position))
    ∧ (∀ a b : CallPositionFrames, (a.difference_with_chk b).isSome = true ↔
        (a.is_bottom = true ∨ b.is_bottom = true ∨ a.position = b.position)) := by
  refine ⟨?_, ?_, ?_, ?_, ?_, ?_, ?_, ?_, ?_⟩
  · intro a f h
    simp [CallPositionFrames.add_chk, h]
  · intro a f p h
    by_cases hf : f.call_position = some p
    · simp [CallPositionFrames.add_chk, h, hf]
    · simp [CallPositionFrames.add_chk, h, hf]
  all_goals
    intro a b
    rw [← positions_compatible_iff a b]
    by_cases hc : a.positions_compatible b = true
  · simp [CallPositionFrames.leq_chk, hc]
  · simp [CallPositionFrames.leq_chk, hc]
  · simp [CallPositionFrames.equals_chk, hc]
  · simp [CallPositionFrames.equals_chk, hc]
  · simp [CallPositionFrames.join_with_chk, hc]
  · simp [CallPositionFrames.join_with_chk, hc]
  · simp [CallPositionFrames.widen_with_chk, hc]
  · simp [CallPositionFrames.widen_with_chk, hc]
  · simp [CallPositionFrames.meet_with_chk, hc]
  · simp [CallPositionFrames.meet_with_chk, hc]
  · simp [CallPositionFrames.narrow_with_chk, hc]
  · simp [CallPositionFrames.narrow_with_chk, hc]
  · simp [CallPositionFrames.difference_with_chk, hc]
  · simp [CallPositionFrames.difference_with_chk, hc]

theorem stepFrame_skip (ctx : Context) (srt : List (Option DexType))
    (sca : List (Option String)) (m : Int) (st : PropState) (f : Frame)
    (h : f.distance ≥ m) : stepFrame ctx srt sca m st f = st := by
  unfold stepFrame
  rw [if_pos h]

theorem foldl_stepFrame_filter (ctx : Context) (srt : List (Option DexType))
    (sca : List (Option String)) (m : Int) :
    ∀ (l : List Frame) (st : PropState),
    l.foldl (stepFrame ctx srt sca m) st
      = (survivors m l).foldl (stepFrame ctx srt sca m) st := by
  intro l
  induction l with
  | nil => intro st; rfl
  | cons f t ih =>
    intro st
    by_cases hf : f.distance < m
    · have hc : survivors m (f :: t) = f :: survivors m t := by
        simp [survivors, List.filter_cons, hf]
      rw [hc]
      simp only [List.foldl_cons]
      exact ih _
    · have hc : survivors m (f :: t) = survivors m t := by
        simp [survivors, List.filter_cons, hf]
      rw [hc]
      simp only [List.foldl_cons]
      rw [stepFrame_skip ctx srt sca m st f (by omega)]
      exact ih st

theorem foldl_stepFrame_distance (ctx : Context) (srt : List (Option DexType))
    (sca : List (Option String)) (m : Int) :
    ∀ (l : List Frame) (st : PropState), (∀ f ∈ l, f.distance < m) →
    (l.foldl (stepFrame ctx srt sca m) st).distance
      = l.foldl (fun d f => min d (f.distance + 1)) st.distance := by
  intro l
  induction l with
  | nil => intro st _; rfl
  | cons f t ih =>
    intro st hall
    have hf : f.distance < m := hall f (List.mem_cons_self f t)
    simp only [List.foldl_cons]
    rw [ih _ (fun g hg => hall g (List.mem_cons_of_mem f hg))]
    congr 1
    unfold stepFrame
    rw [if_neg (by omega)]

theorem foldl_stepFrame_origins (ctx : Context) (srt : List (Option DexType))
    (sca : List (Option String)) (m : Int) :
    ∀ (l : List Frame) (st : PropState), (∀ f ∈ l, f.distance < m) →
    (l.foldl (stepFrame ctx srt sca m) st).origins
      = l.foldl (fun s f => s ∪ f.origins) st.origins := by
  intro l
  induction l with
  | nil => intro st _; rfl
  | cons f t ih =>
    intro st hall
    have hf : f.distance < m := hall f (List.mem_cons_self f t)
    simp only [List.foldl_cons]
    rw [ih _ (fun g hg => hall g (List.mem_cons_of_mem f hg))]
    congr 1
    unfold stepFrame
    rw [if_neg (by omega)]

theorem foldl_stepFrame_field_origins (ctx : Context)
    (srt : List (Option DexType)) (sca : List (Option String)) (m : Int) :
    ∀ (l : List Frame) (st : PropState), (∀ f ∈ l, f.distance < m) →
    (l.foldl (stepFrame ctx srt sca m) st).field_origins
      = l.foldl (fun s f => s ∪ f.field_origins) st.field_origins := by
  intro l
  induction l with
  | nil => intro st _; rfl
  | cons f t ih =>
    intro st hall
    have hf : f.distance < m := hall f (List.mem_cons_self f t)
    simp only [List.foldl_cons]
    rw [ih _ (fun g hg => hall g (List.mem_cons_of_mem f hg))]
    congr 1
    unfold stepFrame
    rw [if_neg (by omega)]

theorem foldl_min_succ :
    ∀ (l : List Frame) (a : Int),
    l.foldl (fun d f => min d (f.distance + 1)) (a + 1)
      = (l.foldl (fun d f => min d f.distance) a) + 1 := by
  intro l
  induction l with
  | nil => intro a; rfl
  | cons f t ih =>
    intro a
    simp only [List.foldl_cons]
    rw [min_add_add_right a f.distance 1]
    exact ih (min a f.distance)

theorem foldl_min_intMax (l : List Frame) (m : Int) (hm : m ≤ intMax)
    (hall : ∀ f ∈ l, f.distance < m) (hne : l ≠ []) :
    l.foldl (fun d f => min d (f.distance + 1)) intMax
      = 1 + minimumDistance l := by
  obtain ⟨f, t, rfl⟩ := List.exists_cons_of_ne_nil hne
  simp only [List.foldl_cons]
  have hf : f.distance + 1 ≤ intMax := by
    have := hall f (List.mem_cons_self f t)
    omega
  rw [min_eq_right hf, foldl_min_succ t f.distance]
  simp only [minimumDistance]
  omega

/-- Claim C2: in ordinary-frame propagation, every input frame with
`distance ≥ maximum_source_sink_distance` is excluded entirely (the result
is the same as propagating only the surviving frames, with no error), and
when at least one frame survives the output frame's distance is 1 + the
minimum distance of the surviving frames and its origins/field origins are
the unions over the surviving frames. -/
theorem propagate_frames_distance_filter (callee : Method)
    (callee_port : AccessPath) (call_position : Option Position) (m : Int)
    (ctx : Context) (srt : List (Option DexType)) (sca : List (Option String))
    (frames : List Frame) (via0 : List Feature) (k : Kind)
    (hne : frames ≠ [])
    (hk : ∀ f ∈ frames, f.kind = some k)
    (hm : m ≤ intMax)
    (hs : survivors m frames ≠ []) :
    propagate_frames callee callee_port call_position m ctx srt sca frames via0
      = propagate_frames callee callee_port call_position m ctx srt sca
          (survivors m frames) via0
    ∧ (propagate_frames callee callee_port call_position m ctx srt sca frames via0).1.distance
        = 1 + minimumDistance (survivors m frames)
    ∧ (propagate_frames callee callee_port call_position m ctx srt sca frames via0).1.origins
        = unionOrigins (survivors m frames)
    ∧ (propagate_frames callee callee_port call_position m ctx srt sca frames via0).1.field_origins
        = unionFieldOrigins (survivors m frames) := by
  obtain ⟨f0, t, rfl⟩ := List.exists_cons_of_ne_nil hne
  obtain ⟨s0, ts, hst⟩ := List.exists_cons_of_ne_nil hs
  have hall : ∀ f ∈ survivors m (f0 :: t), f.distance < m := by
    intro f hf
    have := List.of_mem_filter hf
    simpa using this
  have hs0 : s0 ∈ survivors m (f0 :: t) := by
    rw [hst]
    exact List.mem_cons_self s0 ts
  have hs0m : s0 ∈ f0 :: t := by
    unfold survivors at hs0
    exact List.mem_of_mem_filter hs0
  have hkinds : f0.kind = s0.kind := by
    rw [hk f0 (List.mem_cons_self f0 t), hk s0 hs0m]
  have hfold : (f0 :: t).foldl (stepFrame ctx srt sca m)
      ⟨intMax, ∅, ∅, FeatureMayAlwaysSet.bottom, via0⟩
      = (survivors m (f0 :: t)).foldl (stepFrame ctx srt sca m)
        ⟨intMax, ∅, ∅, FeatureMayAlwaysSet.bottom, via0⟩ :=
    foldl_stepFrame_filter ctx srt sca m (f0 :: t) _
  rw [hst] at hall hfold ⊢
  have hmain : propagate_frames callee callee_port call_position m ctx srt sca
      (f0 :: t) via0
      = propagate_frames callee callee_port call_position m ctx srt sca
        (s0 :: ts) via0 := by
    simp only [propagate_frames]
    rw [hkinds, hfold]
  refine ⟨hmain, ?_, ?_, ?_⟩
  · rw [hmain]
    simp only [propagate_frames, buildPropagated]
    rw [foldl_stepFrame_distance ctx srt sca m (s0 :: ts) _ hall]
    exact foldl_min_intMax (s0 :: ts) m hm hall (List.cons_ne_nil s0 ts)
  · rw [hmain]
    simp only [propagate_frames, buildPropagated]
    rw [foldl_stepFrame_origins ctx srt sca m (s0 :: ts) _ hall]
    rfl
  · rw [hmain]
    simp only [propagate_frames, buildPropagated]
    rw [foldl_stepFrame_field_origins ctx srt sca m (s0 :: ts) _ hall]
    rfl

theorem propagate_frames_distance_filter_witness :
    ([mkFrame 1 0 (some 5) {10} [], mkFrame 1 1 (some 5) {11} [],
        mkFrame 1 9 (some 5) {12} []] ≠ ([] : List Frame))
    ∧ (∀ f ∈ [mkFrame 1 0 (some 5) {10} [], mkFrame 1 1 (some 5) {11} [],
        mkFrame 1 9 (some 5) {12} []], f.kind = some 1)
    ∧ ((5 : Int) ≤ intMax)
    ∧ (survivors 5 [mkFrame 1 0 (some 5) {10} [], mkFrame 1 1 (some 5) {11} [],
        mkFrame 1 9 (some 5) {12} []] ≠ [])
    ∧ (propagate_frames 2 ⟨Root.ret, []⟩ (some 7) 5 sampleCtx [] []
        [mkFrame 1 0 (some 5) {10} [], mkFrame 1 1 (some 5) {11} [],
          mkFrame 1 9 (some 5) {12} []] []
      = propagate_frames 2 ⟨Root.ret, []⟩ (some 7) 5 sampleCtx [] []
        (survivors 5 [mkFrame 1 0 (some 5) {10} [], mkFrame 1 1 (some 5) {11} [],
          mkFrame 1 9 (some 5) {12} []]) []
    ∧ (propagate_frames 2 ⟨Root.ret, []⟩ (some 7) 5 sampleCtx [] []
        [mkFrame 1 0 (some 5) {10} [], mkFrame 1 1 (some 5) {11} [],
          mkFrame 1 9 (some 5) {12} []] []).1.distance
        = 1 + minimumDistance (survivors 5 [mkFrame 1 0 (some 5) {10} [],
            mkFrame 1 1 (some 5) {11} [], mkFrame 1 9 (some 5) {12} []])
    ∧ (propagate_frames 2 ⟨Root.ret, []⟩ (some 7) 5 sampleCtx [] []
        [mkFrame 1 0 (some 5) {10} [], mkFrame 1 1 (some 5) {11} [],
          mkFrame 1 9 (some 5) {12} []] []).1.origins
        = unionOrigins (survivors 5 [mkFrame 1 0 (some 5) {10} [],
            mkFrame 1 1 (some 5) {11} [], mkFrame 1 9 (some 5) {12} []])
    ∧ (propagate_frames 2 ⟨Root.ret, []⟩ (some 7) 5 sampleCtx [] []
        [mkFrame 1 0 (some 5) {10} [], mkFrame 1 1 (some 5) {11} [],
          mkFrame 1 9 (some 5) {12} []] []).1.field_origins
        = unionFieldOrigins (survivors 5 [mkFrame 1 0 (some 5) {10} [],
            mkFrame 1 1 (some 5) {11} [], mkFrame 1 9 (some 5) {12} []])) :=
  ⟨by decide, by decide, by decide, by decide,
   propagate_frames_distance_filter 2 ⟨Root.ret, []⟩ (some 7) 5 sampleCtx [] []
     [mkFrame 1 0 (some 5) {10} [], mkFrame 1 1 (some 5) {11} [],
       mkFrame 1 9 (some 5) {12} []] [] 1
     (by decide) (by decide) (by decide) (by decide)⟩

theorem isEmpty_false_of_ne_nil {α : Type} {l : List α} (h : l ≠ []) :
    l.isEmpty = false := by
  cases l with
  | nil => exact absurd rfl h
  | cons a t => rfl

theorem mem_insertName (s : List CanonicalName) (q x : CanonicalName) :
    x ∈ insertName s q ↔ x ∈ s ∨ x = q := by
  unfold insertName
  by_cases h : q ∈ s
  · rw [if_pos h]
    constructor
    · exact Or.inl
    · rintro (hx | rfl)
      · exact hx
      · exact h
  · rw [if_neg h]
    simp [List.mem_append]

theorem mem_instantiateFold (g : CanonicalName → Option CanonicalName) :
    ∀ (names : List CanonicalName) (s : List CanonicalName) (x : CanonicalName),
    x ∈ names.foldl
        (fun acc n => match g n with | none => acc | some q => insertName acc q) s
      ↔ x ∈ s ∨ ∃ n ∈ names, g n = some x := by
  intro names
  induction names with
  | nil => intro s x; simp
  | cons n t ih =>
    intro s x
    simp only [List.foldl_cons]
    cases hg : g n with
    | none =>
      rw [ih]
      constructor
      · rintro (hx | ⟨n1, hn1, hgx⟩)
        · exact Or.inl hx
        · exact Or.inr ⟨n1, List.mem_cons_of_mem n hn1, hgx⟩
      · rintro (hx | ⟨n1, hn1, hgx⟩)
        · exact Or.inl hx
        · rcases List.mem_cons.mp hn1 with rfl | hmem
          · rw [hg] at hgx
            cases hgx
          · exact Or.inr ⟨n1, hmem, hgx⟩
    | some q =>
      rw [ih]
      constructor
      · rintro (hx | ⟨n1, hn1, hgx⟩)
        · rcases (mem_insertName s q x).mp hx with hx1 | rfl
          · exact Or.inl hx1
          · exact Or.inr ⟨n, List.mem_cons_self n t, by rw [hg]⟩
        · exact Or.inr ⟨n1, List.mem_cons_of_mem n hn1, hgx⟩
      · rintro (hx | ⟨n1, hn1, hgx⟩)
        · exact Or.inl ((mem_insertName s q x).mpr (Or.inl hx))
        · rcases List.mem_cons.mp hn1 with rfl | hmem
          · rw [hg] at hgx
            injection hgx with hqx
            exact Or.inl ((mem_insertName s q x).mpr (Or.inr hqx.symm))
          · exact Or.inr ⟨n1, hmem, hgx⟩

theorem mem_crtexInstantiatedNames (callee : Method) (cp : AccessPath)
    (pos : Option Position) (m : Int) (ctx : Context)
    (srt : List (Option DexType)) (f : Frame) (x : CanonicalName) :
    x ∈ crtexInstantiatedNames callee cp pos m ctx srt f
      ↔ ∃ n ∈ f.canonical_names,
          ctx.instantiate n (some callee)
            (propagate_frames callee cp pos m ctx srt [] [f] []).2 = some x := by
  have h := mem_instantiateFold
    (fun n => ctx.instantiate n
      (propagate_frames callee cp pos m ctx srt [] [f] []).1.callee
      (propagate_frames callee cp pos m ctx srt [] [f] []).2)
    f.canonical_names [] x
  have hc : (propagate_frames callee cp pos m ctx srt [] [f] []).1.callee
      = some callee := rfl
  rw [hc] at h
  exact h.trans (by simp)

theorem crtexStep_skip (callee : Method) (cp : AccessPath)
    (pos : Option Position) (m : Int) (ctx : Context)
    (srt : List (Option DexType)) (kind : Option Kind)
    (res : CallPositionFrames) (f : Frame)
    (h : f.canonical_names = []
      ∨ crtexInstantiatedNames callee cp pos m ctx srt f = []) :
    crtexStep callee cp pos m ctx srt kind res f = res := by
  simp only [crtexStep]
  rcases h with h | h
  · simp [h]
  · simp [h]

theorem crtexStep_emit (callee : Method) (cp : AccessPath)
    (pos : Option Position) (m : Int) (ctx : Context)
    (srt : List (Option DexType)) (kind : Option Kind)
    (res : CallPositionFrames) (f : Frame) (k : Kind)
    (hkind : f.kind = some k) (hn : f.canonical_names ≠ [])
    (hi : crtexInstantiatedNames callee cp pos m ctx srt f ≠ []) :
    crtexStep callee cp pos m ctx srt kind res f
      = res.add (crtexOutFrame callee cp pos m ctx srt kind f) := by
  simp only [crtexStep]
  have hb : (propagate_frames callee cp pos m ctx srt [] [f] []).1.is_bottom
      = false := by
    simp [propagate_frames, buildPropagated, Frame.is_bottom, hkind]
  have hn1 : f.canonical_names.isEmpty = false := isEmpty_false_of_ne_nil hn
  have hi1 : (crtexInstantiatedNames callee cp pos m ctx srt f).isEmpty
      = false := isEmpty_false_of_ne_nil hi
  simp [hb, hn1, hi1]

theorem headKind_of_all (l : List Frame) (k : Kind) (hne : l ≠ [])
    (hk : ∀ f ∈ l, f.kind = some k) : headKind l = some k := by
  obtain ⟨f, t, rfl⟩ := List.exists_cons_of_ne_nil hne
  simpa [headKind] using hk f (List.mem_cons_self f t)

theorem propagate_crtex_singleton_frames (callee : Method) (cp : AccessPath)
    (pos : Option Position) (m : Int) (ctx : Context)
    (srt : List (Option DexType)) (f : Frame) (k : Kind)
    (hkind : f.kind = some k) (hn : f.canonical_names ≠ [])
    (hi : crtexInstantiatedNames callee cp pos m ctx srt f ≠ []) :
    (propagate_crtex_frames callee cp pos m ctx srt [f]).frames
      = [crtexOutFrame callee cp pos m ctx srt f.kind f] := by
  have hfold : propagate_crtex_frames callee cp pos m ctx srt [f]
      = crtexStep callee cp pos m ctx srt f.kind CallPositionFrames.bottom f :=
    rfl
  rw [hfold,
    crtexStep_emit callee cp pos m ctx srt f.kind CallPositionFrames.bottom
      f k hkind hn hi]
  simp [CallPositionFrames.add, CallPositionFrames.bottom, insertFrame]

/-- Claim C3: a CRTEX input frame (non-empty canonical names) for which at
least one canonical name instantiates successfully produces exactly one
output frame, whose distance is 0 regardless of the input distance, whose
canonical names are exactly the successfully instantiated names, and whose
callee port is the given callee port canonicalized for the new callee. -/
theorem propagate_crtex_instantiated_singleton (callee : Method)
    (callee_port : AccessPath) (call_position : Option Position) (m : Int)
    (ctx : Context) (srt : List (Option DexType)) (f : Frame) (k : Kind)
    (hkind : f.kind = some k)
    (hn : f.canonical_names ≠ [])
    (hi : crtexInstantiatedNames callee callee_port call_position m ctx srt f
      ≠ []) :
    ∃ g : Frame,
      (propagate_crtex_frames callee callee_port call_position m ctx srt [f]).frames
        = [g]
      ∧ g.distance = 0
      ∧ g.canonical_names
          = crtexInstantiatedNames callee callee_port call_position m ctx srt f
      ∧ (∀ x : CanonicalName, x ∈ g.canonical_names ↔
          ∃ n ∈ f.canonical_names,
            ctx.instantiate n (some callee)
              (propagate_frames callee callee_port call_position m ctx srt []
                [f] []).2 = some x)
      ∧ g.callee_port = ctx.canonicalize_for_method callee_port (some callee) := by
  refine ⟨crtexOutFrame callee callee_port call_position m ctx srt f.kind f,
    propagate_crtex_singleton_frames callee callee_port call_position m ctx srt
      f k hkind hn hi, rfl, rfl, ?_, rfl⟩
  intro x
  exact mem_crtexInstantiatedNames callee callee_port call_position m ctx srt f x

theorem propagate_crtex_instantiated_singleton_witness :
    ((mkFrame 1 3 (some 5) ∅ [2, 3]).kind = some 1)
    ∧ ((mkFrame 1 3 (some 5) ∅ [2, 3]).canonical_names ≠ [])
    ∧ (crtexInstantiatedNames 2 ⟨Root.ret, []⟩ (some 7) 5 sampleCtx []
        (mkFrame 1 3 (some 5) ∅ [2, 3]) ≠ [])
    ∧ (∃ g : Frame,
        (propagate_crtex_frames 2 ⟨Root.ret, []⟩ (some 7) 5 sampleCtx []
          [mkFrame 1 3 (some 5) ∅ [2, 3]]).frames = [g]
        ∧ g.distance = 0
        ∧ g.canonical_names = crtexInstantiatedNames 2 ⟨Root.ret, []⟩ (some 7) 5
            sampleCtx [] (mkFrame 1 3 (some 5) ∅ [2, 3])
        ∧ (∀ x : CanonicalName, x ∈ g.canonical_names ↔
            ∃ n ∈ (mkFrame 1 3 (some 5) ∅ [2, 3]).canonical_names,
              sampleCtx.instantiate n (some 2)
                (propagate_frames 2 ⟨Root.ret, []⟩ (some 7) 5 sampleCtx [] []
                  [mkFrame 1 3 (some 5) ∅ [2, 3]] []).2 = some x)
        ∧ g.callee_port
            = sampleCtx.canonicalize_for_method ⟨Root.ret, []⟩ (some 2)) :=
  ⟨by decide, by decide, by decide,
   propagate_crtex_instantiated_singleton 2 ⟨Root.ret, []⟩ (some 7) 5 sampleCtx
     [] (mkFrame 1 3 (some 5) ∅ [2, 3]) 1 (by decide) (by decide) (by decide)⟩

/-- Claim C4: a CRTEX input frame contributes nothing to the propagation
output exactly when it carries zero canonical names (dropped with a warning)
or when all its canonical names fail to instantiate; in either case the
propagation of the remaining frames continues unchanged, and a frame outside
these two anomaly cases does contribute output. -/
theorem propagate_crtex_anomaly_drops (callee : Method)
    (callee_port : AccessPath) (call_position : Option Position) (m : Int)
    (ctx : Context) (srt : List (Option DexType)) (k : Kind)
    (l1 l2 : List Frame) (f : Frame)
    (hk : ∀ g ∈ l1 ++ f :: l2, g.kind = some k)
    (hdrop : f.canonical_names = []
      ∨ crtexInstantiatedNames callee callee_port call_position m ctx srt f
          = []) :
    propagate_crtex_frames callee callee_port call_position m ctx srt
        (l1 ++ f :: l2)
      = propagate_crtex_frames callee callee_port call_position m ctx srt
        (l1 ++ l2)
    ∧ (∀ f1 : Frame, f1.kind = some k → f1.canonical_names ≠ [] →
        crtexInstantiatedNames callee callee_port call_position m ctx srt f1
          ≠ [] →
        (propagate_crtex_frames callee callee_port call_position m ctx srt
          [f1]).frames ≠ []) := by
  constructor
  · by_cases hemp : l1 ++ l2 = []
    · have hl1 : l1 = [] := (List.append_eq_nil.mp hemp).1
      have hl2 : l2 = [] := (List.append_eq_nil.mp hemp).2
      subst hl1
      subst hl2
      simp only [List.nil_append, List.append_nil]
      have hone : propagate_crtex_frames callee callee_port call_position m ctx
          srt [f]
          = crtexStep callee callee_port call_position m ctx srt (headKind [f])
            CallPositionFrames.bottom f := rfl
      rw [hone,
        crtexStep_skip callee callee_port call_position m ctx srt (headKind [f])
          CallPositionFrames.bottom f hdrop]
      rfl
    · have hne1 : l1 ++ f :: l2 ≠ [] := by simp
      have hne2 : l1 ++ l2 ≠ [] := hemp
      have hk2 : ∀ g ∈ l1 ++ l2, g.kind = some k := by
        intro g hg
        rcases List.mem_append.mp hg with hg1 | hg2
        · exact hk g (List.mem_append.mpr (Or.inl hg1))
        · exact hk g (List.mem_append.mpr (Or.inr (List.mem_cons_of_mem f hg2)))
      have hhk1 : headKind (l1 ++ f :: l2) = some k :=
        headKind_of_all _ k hne1 hk
      have hhk2 : headKind (l1 ++ l2) = some k := headKind_of_all _ k hne2 hk2
      have hu1 : propagate_crtex_frames callee callee_port call_position m ctx
          srt (l1 ++ f :: l2)
          = (l1 ++ f :: l2).foldl
            (crtexStep callee callee_port call_position m ctx srt
              (headKind (l1 ++ f :: l2)))
            CallPositionFrames.bottom := by
        unfold propagate_crtex_frames
        rw [if_neg (by simp [isEmpty_false_of_ne_nil hne1])]
      have hu2 : propagate_crtex_frames callee callee_port call_position m ctx
          srt (l1 ++ l2)
          = (l1 ++ l2).foldl
            (crtexStep callee callee_port call_position m ctx srt
              (headKind (l1 ++ l2)))
            CallPositionFrames.bottom := by
        unfold propagate_crtex_frames
        rw [if_neg (by simp [isEmpty_false_of_ne_nil hne2])]
      rw [hu1, hu2, hhk1, hhk2, List.foldl_append, List.foldl_append]
      simp only [List.foldl_cons]
      rw [crtexStep_skip callee callee_port call_position m ctx srt (some k) _
        f hdrop]
  · intro f1 hk1 hn1 hi1
    rw [propagate_crtex_singleton_frames callee callee_port call_position m ctx
      srt f1 k hk1 hn1 hi1]
    exact List.cons_ne_nil _ _

theorem propagate_crtex_anomaly_drops_witness :
    (∀ g ∈ [mkFrame 1 0 (some 5) ∅ [2]]
        ++ mkFrame 1 4 (some 5) ∅ [5] :: ([] : List Frame), g.kind = some 1)
    ∧ ((mkFrame 1 4 (some 5) ∅ [5]).canonical_names = []
        ∨ crtexInstantiatedNames 2 ⟨Root.ret, []⟩ (some 7) 5 sampleCtx []
            (mkFrame 1 4 (some 5) ∅ [5]) = [])
    ∧ (propagate_crtex_frames 2 ⟨Root.ret, []⟩ (some 7) 5 sampleCtx []
          ([mkFrame 1 0 (some 5) ∅ [2]]
            ++ mkFrame 1 4 (some 5) ∅ [5] :: ([] : List Frame))
        = propagate_crtex_frames 2 ⟨Root.ret, []⟩ (some 7) 5 sampleCtx []
          ([mkFrame 1 0 (some 5) ∅ [2]] ++ ([] : List Frame))
      ∧ (∀ f1 : Frame, f1.kind = some 1 → f1.canonical_names ≠ [] →
          crtexInstantiatedNames 2 ⟨Root.ret, []⟩ (some 7) 5 sampleCtx [] f1
            ≠ [] →
          (propagate_crtex_frames 2 ⟨Root.ret, []⟩ (some 7) 5 sampleCtx []
            [f1]).frames ≠ [])) :=
  ⟨by decide, by decide,
   propagate_crtex_anomaly_drops 2 ⟨Root.ret, []⟩ (some 7) 5 sampleCtx [] 1
     [mkFrame 1 0 (some 5) ∅ [2]] [] (mkFrame 1 4 (some 5) ∅ [5])
     (by decide) (by decide)⟩

/-- Claim C1 (code evaluation at the failing input): a single ordinary frame
of kind 1 with distance 5 and `maximum_source_sink_distance = 5` is excluded
by the distance filter, so no frame survives — the claim then requires the
result for that kind to be bottom.  The code instead emits a frame of kind 1
whose distance is the loop's untouched initial value
`std::numeric_limits<int>::max()`: `propagate_frames` lacks the
`distance == INT_MAX ⇒ return bottom` guard the spec describes ("If no frame
survives, result is bottom for this kind"). -/
theorem propagate_no_survivor_emits_intmax_frame :
    (CallPositionFrames.propagate ⟨some 7, [mkFrame 1 5 (some 7) {10} []]⟩ 2
        ⟨Root.ret, []⟩ (some 7) 5 sampleCtx [] [])
      = ⟨some 7, [⟨some 1, ⟨Root.ret, []⟩, some 2, none, some 7, intMax, ∅, ∅,
          FeatureMayAlwaysSet.bottom, FeatureMayAlwaysSet.bottom, ∅, [], [],
          ∅, []⟩]⟩
    ∧ survivors 5 [mkFrame 1 5 (some 7) {10} []] = []
    ∧ (CallPositionFrames.propagate ⟨some 7, [mkFrame 1 5 (some 7) {10} []]⟩ 2
        ⟨Root.ret, []⟩ (some 7) 5 sampleCtx [] [])
      ≠ CallPositionFrames.bottom := by
  decide

theorem call_position_invariant_amended_witness :
    ((⟨some 5, [mkFrame 1 0 (some 5) ∅ []]⟩ : CallPositionFrames).position
        = some 5)
    ∧ ((CallPositionFrames.add_chk ⟨some 5, [mkFrame 1 0 (some 5) ∅ []]⟩
          (mkFrame 2 1 (some 6) ∅ [])).isSome = true
        ↔ (mkFrame 2 1 (some 6) ∅ []).call_position = some 5) :=
  ⟨rfl,
   call_position_invariant_amended.2.1 ⟨some 5, [mkFrame 1 0 (some 5) ∅ []]⟩
     (mkFrame 2 1 (some 6) ∅ []) 5 rfl⟩

end MarianaTrench
